import Mathlib

/-!
Verification of the `dhuh` declarative survey engine (Go) against its
natural-language specification.

The development shallowly embeds the current revision of the program
(the forms/groups/fields engine in `main.go`): the schema model, the
template resolver, the per-kind field constructors and validators, the
sequential survey runner, the answer aggregation, and the persisted-answer
loader.  Go's dynamically typed answer values (`interface{}`) are embedded
as `GoValue`; Go maps `map[string]interface{}` are embedded as association
lists with first-match lookup and replace-or-append insertion.

External collaborators that are not part of the repository (the
`html/template` engine, the YAML/JSON codecs of `gopkg.in/yaml.v3` and
`encoding/json`, the `huh` prompt widgets and the host environment) are
modelled explicitly, each with a doc comment stating what is modelled.
-/

deriving instance DecidableEq for Except

namespace Dhuh

/-- A dynamically typed Go value (`interface{}`) as it occurs in the survey's
answer maps: strings, booleans, lists of strings (multiselect answers and
persisted selection lists) and `nil`.  Heterogeneous or nested lists, which
the program never produces and only ever scans for string elements, are not
modelled. -/
inductive GoValue where
  | str (s : String)
  | boolean (b : Bool)
  | list (l : List String)
  | null
deriving DecidableEq, Repr

/-- `map[string]interface{}`, embedded as an association list with
first-match lookup. -/
abbrev AnswerMap := List (String × GoValue)

/-- Map lookup (`m[k]`): first entry with the given key. -/
def lookupA : AnswerMap → String → Option GoValue
  | [], _ => none
  | (k, v) :: rest, key => if k = key then some v else lookupA rest key

/-- Map assignment (`m[k] = v`): replace the existing entry in place, or
append a fresh one. -/
def insertA : AnswerMap → String → GoValue → AnswerMap
  | [], key, v => [(key, v)]
  | (k, w) :: rest, key, v =>
    if k = key then (k, v) :: rest else (k, w) :: insertA rest key v

/-- One option of a `select`/`multiselect` field (`SelectOption`). -/
structure SelectOption where
  key : String
  value : String
  selected : Bool
deriving DecidableEq, Repr

/-- One schema field (`Field`).  `default` is the untyped schema default. -/
structure Field where
  key : String
  type : String
  title : String
  description : String
  required : Bool
  placeholder : String
  default : GoValue
  options : List SelectOption
deriving DecidableEq, Repr

/-- One screen of fields (`Group`). -/
structure Group where
  title : String
  description : String
  fields : List Field
deriving DecidableEq, Repr

/-- An ordered sequence of groups (`Form`). -/
structure Form where
  groups : List Group
deriving DecidableEq, Repr

/-- The final confirmation prompt configuration (`Confirm`). -/
structure Confirm where
  title : String
  description : String
deriving DecidableEq, Repr

/-- The loaded survey document plus its runtime state (`Survey`): `path` is
the schema file's path, `answers` the running answer map (persisted answers
at start). -/
structure Survey where
  path : String
  answers : AnswerMap
  name : String
  version : String
  description : String
  theme : String
  accessible : Bool
  output : String
  forms : List Form
  summary : Bool
  confirm : Confirm
deriving Repr

/-- `fileType`: pick the codec from the path's extension (the suffix test
is spelled on the character lists so that it evaluates). -/
def fileType (path : String) : String :=
  if ".yaml".data.isSuffixOf path.data || ".yml".data.isSuffixOf path.data then "yaml"
  else if ".json".data.isSuffixOf path.data then "json"
  else ""

/-- `Group.ValueFields`: the group's fields that carry a value, i.e. every
field whose type is not `note`. -/
def Group.ValueFields (g : Group) : List Field :=
  g.fields.filter (fun f => f.type ≠ "note")

/-- `Form.ValueFields`: the value fields of all the form's groups, in order. -/
def Form.ValueFields (f : Form) : List Field :=
  (f.groups.map Group.ValueFields).flatten

/-- All fields of a form, in rendering order (groups in order, fields in
order). -/
def Form.allFields (f : Form) : List Field :=
  (f.groups.map Group.fields).flatten

/-- All fields of the survey, in document order: the iteration order of
`Survey.Answers`. -/
def Survey.allFields (s : Survey) : List Field :=
  (s.forms.map Form.allFields).flatten

/-- Rendering of one Go value by `fmt` when it is interpolated into a
template (`fmt.Sprint` on the value). -/
def goSprint : GoValue → String
  | .str s => s
  | .boolean true => "true"
  | .boolean false => "false"
  | .list l => "[" ++ " ".intercalate l ++ "]"
  | .null => "<nil>"

/-- Modelled from the spec and the documented behaviour of the external
`html/template` engine: the HTML escaping applied to every interpolated
value (`<` `>` `&` `"` and the apostrophe become entities). -/
def htmlEscapeChar (c : Char) : String :=
  if c = '<' then "&lt;"
  else if c = '>' then "&gt;"
  else if c = '&' then "&amp;"
  else if c = '\"' then "&#34;"
  else if c = '\x27' then "&#39;"
  else String.singleton c

/-- HTML-escape a whole string, character by character. -/
def htmlEscape (s : String) : String :=
  String.join (s.data.map htmlEscapeChar)

/-- One parsed template segment: literal text, or a substitution marker
referencing an answer key. -/
inductive TplSeg where
  | lit (cs : List Char)
  | ref (key : String)
deriving DecidableEq, Repr

/-- Whitespace characters stripped around a marker's action text. -/
def isSpaceChar (c : Char) : Bool :=
  c = ' ' || c = '\t' || c = '\n' || c = '\r'

/-- Drop leading whitespace from a character list. -/
def dropLeadingSpaces : List Char → List Char
  | [] => []
  | c :: rest => if isSpaceChar c then dropLeadingSpaces rest else c :: rest

/-- Trim whitespace from both ends of a character list. -/
def trimChars (cs : List Char) : List Char :=
  (dropLeadingSpaces (dropLeadingSpaces cs).reverse).reverse

/-- Strip a literal prefix, returning the remainder when it matches. -/
def stripCharPrefix : List Char → List Char → Option (List Char)
  | [], cs => some cs
  | p :: ps, c :: cs => if c = p then stripCharPrefix ps cs else none
  | _ :: _, [] => none

/-- Interpret the text between a marker's delimiters.  The engine's variable
lookup forms are modelled: `index . "key"` (the accessor syntax the schemas
use) and the field form `.key`.  Anything else is a parse error in the
model. -/
def parseActionKey (cs : List Char) : Option String :=
  let t := trimChars cs
  match stripCharPrefix ("index . \"".data) t with
  | some rest =>
    match rest.reverse with
    | '"' :: revKey => some (String.mk revKey.reverse)
    | _ => none
  | none =>
    match t with
    | '.' :: k => if k.isEmpty then none else some (String.mk k)
    | _ => none

/-- Scan template text into segments.  The flag is true while inside a
marker; the accumulator collects the current literal or marker text.  An
unterminated marker is a parse error. -/
def tplScanAux : Bool → List Char → List Char → Option (List TplSeg)
  | false, acc, '\x7b' :: '\x7b' :: rest =>
      (tplScanAux true [] rest).map (fun segs => .lit acc :: segs)
  | false, acc, c :: rest => tplScanAux false (acc ++ [c]) rest
  | false, acc, [] => some [.lit acc]
  | true, acc, '\x7d' :: '\x7d' :: rest =>
      match parseActionKey acc with
      | some k => (tplScanAux false [] rest).map (fun segs => .ref k :: segs)
      | none => none
  | true, acc, c :: rest => tplScanAux true (acc ++ [c]) rest
  | true, _, [] => none

/-- What the engine renders for a marker whose key is absent from the data.
Modelled as the escaped `<no value>` placeholder; no theorem below depends
on this particular string. -/
def tplMissing : String := htmlEscape "<no value>"

/-- Execute one segment against the data passed to the engine — which, in
`Survey.ParseTemplate`, is the survey's answers map and nothing else. -/
def tplExecSeg (answers : AnswerMap) : TplSeg → String
  | .lit cs => String.mk cs
  | .ref k =>
    match lookupA answers k with
    | some v => htmlEscape (goSprint v)
    | none => tplMissing

/-- Execute a parsed template against the answers map: the segments'
renderings, concatenated in order (the engine writes them to one buffer). -/
def tplExec (answers : AnswerMap) : List TplSeg → String
  | [] => ""
  | seg :: rest => tplExecSeg answers seg ++ tplExec answers rest

/-- `Survey.ParseTemplate`: expand a default-value template.  The receiver's
`answers` map is the only state the source consults (it is the sole data
argument of `tmpl.Execute`); the host environment is never passed in.  An
empty template is returned unchanged without touching the engine. -/
def ParseTemplate (answers : AnswerMap) (value key : String) : Except String String :=
  if value.length < 1 then .ok value
  else
    match tplScanAux false [] value.data with
    | none => .error ("template: " ++ key ++ ": parse error")
    | some segs => .ok (tplExec answers segs)

/-- `Survey.NewInputField`: the initial value placed in the input widget.
When the schema default is a string it is template-expanded first (a
template failure panics in the source, modelled as the error branch); then
a persisted string under the field's key overrides whatever the template
produced.  A non-string default leaves the empty string, still subject to
the persisted override. -/
def NewInputField (answers : AnswerMap) (f : Field) : Except String String :=
  match f.default with
  | .str d =>
    match ParseTemplate answers d f.key with
    | .error e => .error e
    | .ok t =>
      match lookupA answers f.key with
      | some (.str a) => .ok a
      | _ => .ok t
  | _ =>
    .ok (match lookupA answers f.key with
      | some (.str a) => a
      | _ => "")

/-- `Survey.NewTextField`: the text widget's initial value; the source
duplicates the input field's logic verbatim. -/
def NewTextField (answers : AnswerMap) (f : Field) : Except String String :=
  match f.default with
  | .str d =>
    match ParseTemplate answers d f.key with
    | .error e => .error e
    | .ok t =>
      match lookupA answers f.key with
      | some (.str a) => .ok a
      | _ => .ok t
  | _ =>
    .ok (match lookupA answers f.key with
      | some (.str a) => a
      | _ => "")

/-- One option handed to the external select/multiselect widget: display
key, value, and the pre-selected flag. -/
structure HuhOption where
  key : String
  value : String
  selected : Bool
deriving DecidableEq, Repr

/-- The persisted entry under a key when it is a list (`.([]interface{})`
type assertion in the source); any other shape is ignored. -/
def persistedList (answers : AnswerMap) (key : String) : Option (List String) :=
  match lookupA answers key with
  | some (.list l) => some l
  | _ => none

/-- Build one widget option: the display key falls back to the value when
absent, and the option is pre-selected when its static flag is set or when
its `value` matches an element of the persisted list (the source scans the
list and breaks at the first match). -/
def markOption (persisted : Option (List String)) (o : SelectOption) : HuhOption :=
  { key := if o.key = "" then o.value else o.key
    value := o.value
    selected := o.selected ||
      (match persisted with
        | some sel => sel.contains o.value
        | none => false) }

/-- `Survey.NewSelectField`: the select widget's initial value string and
its options.  The default string is taken literally (never templated).
Inside the option loop the source executes `value = value[:0]` whenever a
persisted list exists, so the default string is cleared as soon as there is
at least one option and a persisted list entry, match or no match. -/
def NewSelectField (answers : AnswerMap) (f : Field) : String × List HuhOption :=
  let v0 := match f.default with | .str d => d | _ => ""
  let persisted := persistedList answers f.key
  let value := match persisted with
    | some _ => if f.options.isEmpty then v0 else ""
    | none => v0
  (value, f.options.map (markOption persisted))

/-- `Survey.NewMultiSelectField`: the multiselect widget's initial value
list (string elements of a list default) and its options; the same
`value = value[:0]` clearing applies when a persisted list exists. -/
def NewMultiSelectField (answers : AnswerMap) (f : Field) : List String × List HuhOption :=
  let v0 := match f.default with | .list l => l | _ => []
  let persisted := persistedList answers f.key
  let value := match persisted with
    | some _ => if f.options.isEmpty then v0 else []
    | none => v0
  (value, f.options.map (markOption persisted))

/-- `Survey.NewConfirmField`: a boolean default taken literally,
resume-overridden by a persisted boolean under the field's key. -/
def NewConfirmField (answers : AnswerMap) (f : Field) : Bool :=
  let v0 := match f.default with | .boolean b => b | _ => false
  match lookupA answers f.key with
  | some (.boolean a) => a
  | _ => v0

/-- The input widget's validator: rejects exactly when the field is
required and the value is the empty string. -/
def inputValidateFails (f : Field) (s : String) : Bool :=
  f.required && s == ""

/-- The text widget's validator (verbatim copy of the input validator in
the source). -/
def textValidateFails (f : Field) (s : String) : Bool :=
  f.required && s == ""

/-- The select widget's validator: rejects when required and `len(s) <= 0`. -/
def selectValidateFails (f : Field) (s : String) : Bool :=
  f.required && decide (s.length ≤ 0)

/-- The multiselect widget's validator: rejects when required and
`len(t) <= 0`. -/
def multiselectValidateFails (f : Field) (t : List String) : Bool :=
  f.required && decide (t.length ≤ 0)

/-- The confirm widget has no validator attached in the source: it never
fails validation. -/
def confirmValidateFails (_f : Field) (_b : Bool) : Bool :=
  false

/-- Errors aborting `Survey.Run`: an unsupported field type (returned
error), a template failure (a panic in the source), or a prompt session
that can never pass validation (the external library would re-prompt
forever; the run never completes). -/
inductive RunError where
  | unsupportedFieldType (t : String)
  | templateError (e : String)
  | sessionFailed
deriving DecidableEq, Repr

/-- One rendered field: the schema field, the initial value its widget was
constructed with, and the value read back after the session. -/
structure FieldRender where
  field : Field
  initial : GoValue
  final : GoValue
deriving DecidableEq, Repr

/-- The value the widget reports after its session (`field.ref.GetValue()`):
the operator oracle's value for value fields; `nil` for notes (modelled
from the spec: the external note widget carries no value). -/
def finalValue (input : String → GoValue) (f : Field) : GoValue :=
  if f.type = "note" then .null else input f.key

/-- One iteration of the field-construction switch in `Survey.Run`: build
the widget for a field, or fail.  The type dispatch mirrors the source's
switch, whose default case returns the unsupported-field-type error. -/
def constructField (answers : AnswerMap) (input : String → GoValue) (f : Field) :
    Except RunError FieldRender :=
  if f.type = "note" then .ok ⟨f, .null, .null⟩
  else if f.type = "input" then
    match NewInputField answers f with
    | .error e => .error (.templateError e)
    | .ok v => .ok ⟨f, .str v, input f.key⟩
  else if f.type = "text" then
    match NewTextField answers f with
    | .error e => .error (.templateError e)
    | .ok v => .ok ⟨f, .str v, input f.key⟩
  else if f.type = "select" then .ok ⟨f, .str (NewSelectField answers f).1, input f.key⟩
  else if f.type = "multiselect" then .ok ⟨f, .list (NewMultiSelectField answers f).1, input f.key⟩
  else if f.type = "confirm" then .ok ⟨f, .boolean (NewConfirmField answers f), input f.key⟩
  else .error (.unsupportedFieldType f.type)

/-- Construct the widgets for a list of fields in order, stopping at the
first failure — exactly the group/field loops of `Survey.Run`, which build
every group of a form before the form is run. -/
def constructFields (answers : AnswerMap) (input : String → GoValue) :
    List Field → Except RunError (List FieldRender)
  | [] => .ok []
  | f :: rest =>
    match constructField answers input f with
    | .error e => .error e
    | .ok r =>
      match constructFields answers input rest with
      | .error e => .error e
      | .ok rs => .ok (r :: rs)

/-- Whether a field's session value has the widget's value shape and passes
the widget's validator — the condition the external library enforces before
a session can complete. -/
def fieldAccepts (f : Field) (v : GoValue) : Bool :=
  if f.type = "note" then true
  else if f.type = "input" then
    match v with | .str t => !(inputValidateFails f t) | _ => false
  else if f.type = "text" then
    match v with | .str t => !(textValidateFails f t) | _ => false
  else if f.type = "select" then
    match v with | .str t => !(selectValidateFails f t) | _ => false
  else if f.type = "multiselect" then
    match v with | .list l => !(multiselectValidateFails f l) | _ => false
  else if f.type = "confirm" then
    match v with | .boolean _ => true | _ => false
  else false

/-- One iteration of the form loop in `Survey.Run`: construct every group's
widgets (templates resolve here, against the answers as they stand before
this form), run the prompt session when at least one group has fields, then
write every value field's resulting value into the answers map.  The
session is modelled by the operator oracle `input`; a completed session
requires every field's value to pass its validator. -/
def RunForm (input : String → GoValue) (answers : AnswerMap) (fm : Form) :
    Except RunError (List FieldRender × AnswerMap) :=
  match constructFields answers input fm.allFields with
  | .error e => .error e
  | .ok renders =>
    if fm.groups.any (fun g => !g.fields.isEmpty) then
      if renders.all (fun r => fieldAccepts r.field r.final) then
        .ok (renders,
          fm.ValueFields.foldl (fun m f => insertA m f.key (input f.key)) answers)
      else .error .sessionFailed
    else .ok ([], answers)

/-- The form loop of `Survey.Run` over a list of forms: the trace of
rendered fields (in order) and the final answers map or the first error. -/
def RunForms (input : String → GoValue) (answers : AnswerMap) :
    List Form → List FieldRender × Except RunError AnswerMap
  | [] => ([], .ok answers)
  | fm :: rest =>
    match RunForm input answers fm with
    | .error e => ([], .error e)
    | .ok (tr, ans2) =>
      let next := RunForms input ans2 rest
      (tr ++ next.1, next.2)

/-- `Survey.Run`: drive all forms in order, starting from the survey's
answers map (the persisted answers).  The initial header note of the source
is presentation only and carries no state.  Returns the rendered-field
trace alongside the result so that aborted runs still expose what was
rendered. -/
def Survey.Run (s : Survey) (input : String → GoValue) :
    List FieldRender × Except RunError AnswerMap :=
  RunForms input s.answers s.forms

/-- The map `o` built by `Survey.Answers`: one assignment per field of
every group of every form — note fields included — each mapped to its
widget's reported value. -/
def Survey.AnswersMap (s : Survey) (input : String → GoValue) : AnswerMap :=
  s.allFields.foldl (fun m f => insertA m f.key (finalValue input f)) []

/-- Modelled from the spec: the external structured-data codecs
(`encoding/json` and `gopkg.in/yaml.v3`) are not part of the repository.
Both are modelled over the answer-value shapes as one parameterised wire
format: entries `"key"<colon>value`, strings double-quoted with `\"` `\\`
`\n` escapes, booleans and null literal, string lists in `[...]` flow
style.  JSON wraps the entries in braces and separates them with commas;
the YAML model uses one entry per line with a `: ` separator (a valid YAML
subset).  Key ordering and yaml block style are not modelled. -/
structure WireFormat where
  braces : Bool
  entrySep : Char
  colonSpace : Bool
deriving DecidableEq, Repr

/-- The JSON instantiation of the wire format. -/
def jsonFmt : WireFormat := ⟨true, ',', false⟩

/-- The YAML instantiation of the wire format. -/
def yamlFmt : WireFormat := ⟨false, '\n', true⟩

/-- Escape one character inside a double-quoted scalar. -/
def wireEscapeChar (c : Char) : List Char :=
  if c = '"' then ['\\', '"']
  else if c = '\\' then ['\\', '\\']
  else if c = '\n' then ['\\', 'n']
  else [c]

/-- The escaped body of a quoted scalar. -/
def wireStrBody (s : String) : List Char :=
  (s.data.map wireEscapeChar).flatten

/-- A double-quoted scalar. -/
def wireStr (s : String) : List Char :=
  '"' :: wireStrBody s ++ ['"']

/-- The comma-prefixed continuation of a list's elements. -/
def wireElemsTail : List String → List Char
  | [] => []
  | s :: rest => ',' :: wireStr s ++ wireElemsTail rest

/-- The elements of a flow-style list. -/
def wireElems : List String → List Char
  | [] => []
  | s :: rest => wireStr s ++ wireElemsTail rest

/-- Encode one answer value. -/
def wireVal : GoValue → List Char
  | .str s => wireStr s
  | .boolean true => "true".data
  | .boolean false => "false".data
  | .null => "null".data
  | .list l => '[' :: wireElems l ++ [']']

/-- Encode one `key: value` entry. -/
def wireEntry (fmt : WireFormat) (kv : String × GoValue) : List Char :=
  wireStr kv.1 ++ ':' :: (if fmt.colonSpace then [' '] else []) ++ wireVal kv.2

/-- The separator-prefixed continuation of a map's entries. -/
def wireEntriesTail (fmt : WireFormat) : AnswerMap → List Char
  | [] => []
  | kv :: rest => fmt.entrySep :: wireEntry fmt kv ++ wireEntriesTail fmt rest

/-- The entries of a map. -/
def wireEntries (fmt : WireFormat) : AnswerMap → List Char
  | [] => []
  | kv :: rest => wireEntry fmt kv ++ wireEntriesTail fmt rest

/-- Serialize an answer map in the given wire format. -/
def wireEncode (fmt : WireFormat) (m : AnswerMap) : String :=
  if fmt.braces then String.mk ('\x7b' :: wireEntries fmt m ++ ['\x7d'])
  else String.mk (wireEntries fmt m)

/-- `yaml.Marshal` of an answer map, in the modelled YAML subset. -/
def yamlMarshal (m : AnswerMap) : String := wireEncode yamlFmt m

/-- `json.Marshal` of an answer map, in the modelled JSON. -/
def jsonMarshal (m : AnswerMap) : String := wireEncode jsonFmt m

/-- Where a just-finished quoted scalar belongs: a key, a value, or a list
element. -/
inductive WCtx where
  | key (done : AnswerMap)
  | val (done : AnswerMap) (k : String)
  | elem (done : AnswerMap) (k : String) (elems : List String)
deriving DecidableEq, Repr

/-- The decoder's state: one constructor per position in an entry. -/
inductive WState where
  | atKey (done : AnswerMap) (allowEnd : Bool)
  | inStr (ctx : WCtx) (acc : List Char)
  | inStrEsc (ctx : WCtx) (acc : List Char)
  | atColon (done : AnswerMap) (k : String)
  | atColonSpace (done : AnswerMap) (k : String)
  | atVal (done : AnswerMap) (k : String)
  | atElemFirst (done : AnswerMap) (k : String)
  | atElem (done : AnswerMap) (k : String) (elems : List String)
  | afterElem (done : AnswerMap) (k : String) (elems : List String)
  | afterVal (done : AnswerMap)
  | atEnd (done : AnswerMap)
deriving DecidableEq, Repr

/-- Dispatch after a closing quote: a key awaits its colon; a value or list
element is recorded. -/
def strDone : WCtx → List Char → WState
  | .key done, acc => .atColon done (String.mk acc)
  | .val done k, acc => .afterVal (done ++ [(k, .str (String.mk acc))])
  | .elem done k elems, acc => .afterElem done k (elems ++ [String.mk acc])

/-- The decoder: a total state machine over the input characters. -/
def wireP (fmt : WireFormat) : WState → List Char → Option AnswerMap
  | .atKey done ae, [] => if fmt.braces then none else if ae then some done else none
  | .atKey done ae, c :: rest =>
    if c = '"' then wireP fmt (.inStr (.key done) []) rest
    else if fmt.braces && ae && c = '\x7d' then wireP fmt (.atEnd done) rest
    else none
  | .inStr _ _, [] => none
  | .inStr ctx acc, c :: rest =>
    if c = '"' then wireP fmt (strDone ctx acc) rest
    else if c = '\\' then wireP fmt (.inStrEsc ctx acc) rest
    else wireP fmt (.inStr ctx (acc ++ [c])) rest
  | .inStrEsc _ _, [] => none
  | .inStrEsc ctx acc, c :: rest =>
    if c = '"' then wireP fmt (.inStr ctx (acc ++ ['"'])) rest
    else if c = '\\' then wireP fmt (.inStr ctx (acc ++ ['\\'])) rest
    else if c = 'n' then wireP fmt (.inStr ctx (acc ++ ['\n'])) rest
    else none
  | .atColon _ _, [] => none
  | .atColon done k, c :: rest =>
    if c = ':' then
      if fmt.colonSpace then wireP fmt (.atColonSpace done k) rest
      else wireP fmt (.atVal done k) rest
    else none
  | .atColonSpace _ _, [] => none
  | .atColonSpace done k, c :: rest =>
    if c = ' ' then wireP fmt (.atVal done k) rest else none
  | .atVal done k, 't' :: 'r' :: 'u' :: 'e' :: rest =>
    wireP fmt (.afterVal (done ++ [(k, .boolean true)])) rest
  | .atVal done k, 'f' :: 'a' :: 'l' :: 's' :: 'e' :: rest =>
    wireP fmt (.afterVal (done ++ [(k, .boolean false)])) rest
  | .atVal done k, 'n' :: 'u' :: 'l' :: 'l' :: rest =>
    wireP fmt (.afterVal (done ++ [(k, .null)])) rest
  | .atVal done k, '"' :: rest => wireP fmt (.inStr (.val done k) []) rest
  | .atVal done k, '[' :: rest => wireP fmt (.atElemFirst done k) rest
  | .atVal _ _, _ => none
  | .atElemFirst _ _, [] => none
  | .atElemFirst done k, c :: rest =>
    if c = '"' then wireP fmt (.inStr (.elem done k []) []) rest
    else if c = ']' then wireP fmt (.afterVal (done ++ [(k, .list [])])) rest
    else none
  | .atElem _ _ _, [] => none
  | .atElem done k elems, c :: rest =>
    if c = '"' then wireP fmt (.inStr (.elem done k elems) []) rest else none
  | .afterElem _ _ _, [] => none
  | .afterElem done k elems, c :: rest =>
    if c = ',' then wireP fmt (.atElem done k elems) rest
    else if c = ']' then wireP fmt (.afterVal (done ++ [(k, .list elems)])) rest
    else none
  | .afterVal done, [] => if fmt.braces then none else some done
  | .afterVal done, c :: rest =>
    if c = fmt.entrySep then wireP fmt (.atKey done false) rest
    else if fmt.braces && c = '\x7d' then wireP fmt (.atEnd done) rest
    else none
  | .atEnd done, [] => some done
  | .atEnd _, _ :: _ => none

/-- Parse a serialized answer map in the given wire format. -/
def parseWire (fmt : WireFormat) (s : String) : Option AnswerMap :=
  if fmt.braces then
    match s.data with
    | '\x7b' :: rest => wireP fmt (.atKey [] true) rest
    | _ => none
  else wireP fmt (.atKey [] true) s.data

/-- `yaml.Unmarshal` into an answer map (modelled YAML subset). -/
def yamlUnmarshal (s : String) : Option AnswerMap := parseWire yamlFmt s

/-- `json.Unmarshal` into an answer map (modelled JSON). -/
def jsonUnmarshal (s : String) : Option AnswerMap := parseWire jsonFmt s

/-- `Survey.Answers`: build the output map over all fields, pick the format
from the output path's extension — or from the schema path's when output is
empty or the stdout sentinel `-` — and marshal, or fail with the
unsupported-extension error. -/
def Survey.Answers (s : Survey) (input : String → GoValue) : Except String String :=
  let o := s.AnswersMap input
  let path := if s.output = "" ∨ s.output = "-" then s.path else s.output
  if fileType path = "yaml" then .ok (yamlMarshal o)
  else if fileType path = "json" then .ok (jsonMarshal o)
  else .error "unsupported file extension, only .yaml, .yml and .json are supported"

/-- A filesystem snapshot: each path either holds contents or does not
exist (`os.Stat` reports not-exist exactly on `none`). -/
abbrev FileSystem := String → Option String

/-- How a persisted-answer load can abort: the path's extension names no
codec (`ErrUnsupportedFileExtension`), or the existing file fails to parse. -/
inductive LoadError where
  | unsupportedExtension
  | parseError (format : String)
deriving DecidableEq, Repr

/-- `readAnswers`: a missing file yields the empty map with no error; an
existing file is decoded by the extension-selected codec; an unsupported
extension or a parse failure aborts. -/
def readAnswers (fs : FileSystem) (path : String) : Except LoadError AnswerMap :=
  match fs path with
  | none => .ok []
  | some contents =>
    if fileType path = "yaml" then
      match yamlUnmarshal contents with
      | some m => .ok m
      | none => .error (.parseError "yaml")
    else if fileType path = "json" then
      match jsonUnmarshal contents with
      | some m => .ok m
      | none => .error (.parseError "json")
    else .error .unsupportedExtension

/-- The persisted-answer part of `NewSurvey`: answers are read from the
output path only when it is neither empty nor the stdout sentinel `-`;
otherwise the initial empty map stands and the filesystem is never
consulted. -/
def NewSurveyAnswers (fs : FileSystem) (output : String) : Except LoadError AnswerMap :=
  if output ≠ "" ∧ output ≠ "-" then readAnswers fs output else .ok []

/-- What `main` does after `NewSurvey` succeeds: run fatally aborts
(non-zero exit, nothing written), the operator declines the final
confirmation (zero exit, nothing written), serialization fails (non-zero
exit, nothing written), or the bytes go to stdout or to the output file. -/
inductive MainOutcome where
  | fatalRun (e : RunError)
  | fatalSerialize (msg : String)
  | abortedByConfirm
  | wroteStdout (contents : String)
  | wroteFile (path : String) (contents : String)
deriving DecidableEq, Repr

/-- The tail of `main`: run the survey, show the optional confirmation
prompt (answered by `confirmOk`), serialize, then write to the output path
or stdout.  The summary table is presentation only and not modelled. -/
def surveyMain (s : Survey) (input : String → GoValue) (confirmOk : Bool) :
    List FieldRender × MainOutcome :=
  match s.Run input with
  | (tr, .error e) => (tr, .fatalRun e)
  | (tr, .ok _) =>
    if 0 < s.confirm.title.length ∧ confirmOk = false then (tr, .abortedByConfirm)
    else
      match s.Answers input with
      | .error e => (tr, .fatalSerialize e)
      | .ok bytes =>
        if s.output = "" ∨ s.output = "-" then (tr, .wroteStdout bytes)
        else (tr, .wroteFile s.output bytes)

/-- The field types implemented by the construction switch in `Survey.Run`. -/
def supportedType (t : String) : Bool :=
  t = "note" || t = "input" || t = "text" || t = "select" || t = "multiselect" || t = "confirm"

/-- Whether a construction attempt ended in a template panic. -/
def isTemplateErr : Except RunError FieldRender → Bool
  | .error (.templateError _) => true
  | _ => false

/-- The keys of an answer map, in entry order. -/
def keysA (m : AnswerMap) : List String := m.map Prod.fst

/-- The keys of the survey's non-note fields, in document order. -/
def Survey.nonNoteKeys (s : Survey) : List String :=
  ((s.forms.map Form.ValueFields).flatten).map Field.key

/-! ### Concrete fixtures used by counterexamples and witnesses -/

/-- A note field that carries a key. -/
def noteField : Field := ⟨"n", "note", "heads up", "", false, "", .null, []⟩

/-- A plain optional input field with key `i`. -/
def inputFieldI : Field := ⟨"i", "input", "q", "", false, "", .null, []⟩

/-- A field whose type the registry does not implement. -/
def wizardField : Field := ⟨"w", "wizard", "", "", false, "", .null, []⟩

/-- One form, one group, a keyed note followed by an input field. -/
def c1survey : Survey :=
  ⟨"s.yaml", [], "S", "1", "", "", false, "out.yaml",
    [⟨[⟨"g", "", [noteField, inputFieldI]⟩]⟩], false, ⟨"", ""⟩⟩

/-- An operator oracle that answers `x` everywhere. -/
def xInput : String → GoValue := fun _ => .str "x"

/-- A survey whose second form contains the unsupported field. -/
def c2survey : Survey :=
  ⟨"s.yaml", [], "S", "1", "", "", false, "out.yaml",
    [⟨[⟨"g1", "", [inputFieldI]⟩]⟩, ⟨[⟨"g2", "", [wizardField]⟩]⟩], false, ⟨"", ""⟩⟩

/-- Modelled from the spec: an example host-process environment, with
`HOME=/root`.  The spec says the resolver can read such variables; the
source never passes any environment into the engine. -/
def hostEnv : String → Option String :=
  fun k => if k = "HOME" then some "/root" else none

/-- A template whose single marker references the name `HOME`. -/
def refHomeTemplate : String := "\x7b\x7b index . \"HOME\" \x7d\x7d"

/-- A template whose single marker references the key `a`. -/
def refATemplate : String := "\x7b\x7b index . \"a\" \x7d\x7d"

/-- An optional input field with key `a` and no default. -/
def fieldA : Field := ⟨"a", "input", "", "", false, "", .null, []⟩

/-- An optional input field with key `b` whose default references `a`. -/
def fieldB : Field := ⟨"b", "input", "", "", false, "", .str refATemplate, []⟩

/-- `fieldA` and `fieldB` in two separate forms. -/
def c4twoForms : Survey :=
  ⟨"s.yaml", [], "", "", "", "", false, "out.yaml",
    [⟨[⟨"", "", [fieldA]⟩]⟩, ⟨[⟨"", "", [fieldB]⟩]⟩], false, ⟨"", ""⟩⟩

/-- `fieldA` and `fieldB` in two groups of one form. -/
def c4oneForm : Survey :=
  ⟨"s.yaml", [], "", "", "", "", false, "out.yaml",
    [⟨[⟨"", "", [fieldA]⟩, ⟨"", "", [fieldB]⟩]⟩], false, ⟨"", ""⟩⟩

/-- The one-form layout resumed from a persisted answer `a: old`. -/
def c4resumed : Survey :=
  ⟨"s.yaml", [("a", .str "old")], "", "", "", "", false, "out.yaml",
    [⟨[⟨"", "", [fieldA]⟩, ⟨"", "", [fieldB]⟩]⟩], false, ⟨"", ""⟩⟩

/-- An operator oracle entering `va` for key `a` and `vb` elsewhere. -/
def c4input (va vb : String) : String → GoValue :=
  fun k => if k = "a" then .str va else .str vb

/-- A required select field with default `gcp` and two options. -/
def cloudField : Field :=
  ⟨"cloud", "select", "", "", true, "", .str "gcp",
    [⟨"Amazon", "aws", false⟩, ⟨"Google", "gcp", false⟩]⟩

/-- A persisted answer map whose list under `cloud` matches no option. -/
def c6answers : AnswerMap := [("cloud", .list ["azure"])]

/-- A filesystem holding one file whose extension names no codec. -/
def c9fs : FileSystem := fun p => if p = "out.txt" then some "hello" else none

/-- An optional input field with key `k` and a plain string default. -/
def c5field : Field := ⟨"k", "input", "", "", false, "", .str "hello", []⟩

/-- A persisted string answer under key `k`. -/
def c5answers : AnswerMap := [("k", .str "persisted")]

/-- A required input field with key `r`. -/
def reqField : Field := ⟨"r", "input", "", "", true, "", .null, []⟩

/-- One form, one group, one required input field. -/
def c7survey : Survey :=
  ⟨"s.yaml", [], "S", "1", "", "", false, "out.yaml",
    [⟨[⟨"g", "", [reqField]⟩]⟩], false, ⟨"", ""⟩⟩

/-- An operator oracle that answers `y` everywhere. -/
def yInput : String → GoValue := fun _ => .str "y"

/-- A template whose single marker references the key `k`. -/
def refKTemplate : String := "\x7b\x7b index . \"k\" \x7d\x7d"

/-- An answers map whose value under `k` contains HTML-special characters. -/
def c10answers : AnswerMap := [("k", .str "<b>&\"hi")]

/-! ### Association-list lemmas -/

theorem insertA_of_not_mem (m : AnswerMap) (k : String) (v : GoValue)
    (h : k ∉ keysA m) : insertA m k v = m ++ [(k, v)] := by
  induction m with
  | nil => rfl
  | cons kv rest ih =>
    obtain ⟨k1, w⟩ := kv
    simp only [keysA, List.map_cons, List.mem_cons, not_or] at h
    simp only [insertA, List.cons_append]
    rw [if_neg (fun he => h.1 he.symm)]
    rw [ih (by simpa [keysA] using h.2)]

theorem foldl_insertA_pairs :
    ∀ (l : List (String × GoValue)) (acc : AnswerMap),
      (l.map Prod.fst).Nodup → (∀ kv ∈ l, kv.1 ∉ keysA acc) →
      l.foldl (fun m kv => insertA m kv.1 kv.2) acc = acc ++ l := by
  intro l
  induction l with
  | nil => intro acc _ _; simp
  | cons kv rest ih =>
    intro acc hnd hdis
    simp only [List.map_cons, List.nodup_cons] at hnd
    simp only [List.foldl_cons]
    rw [insertA_of_not_mem acc kv.1 kv.2 (hdis kv (List.mem_cons_self kv rest))]
    rw [ih (acc ++ [kv]) hnd.2]
    · simp
    · intro kv2 h2
      simp only [keysA, List.map_append, List.mem_append, not_or]
      refine ⟨hdis kv2 (List.mem_cons_of_mem kv h2), ?_⟩
      simp only [List.map_cons, List.map_nil, List.mem_singleton]
      intro he
      exact hnd.1 (he ▸ List.mem_map_of_mem Prod.fst h2)

/-- With pairwise distinct field keys, the output map built by
`Survey.Answers` is exactly one entry per field, in document order. -/
theorem AnswersMap_eq_of_nodup (s : Survey) (input : String → GoValue)
    (h : (s.allFields.map Field.key).Nodup) :
    s.AnswersMap input = s.allFields.map (fun f => (f.key, finalValue input f)) := by
  unfold Survey.AnswersMap
  have hfm := List.foldl_map (fun f : Field => (f.key, finalValue input f))
    (fun (m : AnswerMap) kv => insertA m kv.1 kv.2) s.allFields ([] : AnswerMap)
  have hmain := foldl_insertA_pairs (s.allFields.map (fun f => (f.key, finalValue input f))) []
    (by simpa [List.map_map, Function.comp] using h)
    (by intro kv _; simp [keysA])
  simpa [hfm] using hmain

/-! ### Run-structure lemmas -/

theorem constructField_field {answers : AnswerMap} {input : String → GoValue}
    {f : Field} {r : FieldRender}
    (h : constructField answers input f = .ok r) : r.field = f := by
  unfold constructField at h
  split_ifs at h
  · cases h; rfl
  · cases h1 : NewInputField answers f <;> rw [h1] at h
    · cases h
    · cases h; rfl
  · cases h1 : NewTextField answers f <;> rw [h1] at h
    · cases h
    · cases h; rfl
  · cases h; rfl
  · cases h; rfl
  · cases h; rfl

theorem constructFields_ok_map {answers : AnswerMap} {input : String → GoValue} :
    ∀ {l : List Field} {rs : List FieldRender},
      constructFields answers input l = .ok rs → rs.map FieldRender.field = l := by
  intro l
  induction l with
  | nil =>
    intro rs h
    simp only [constructFields] at h
    cases h
    simp
  | cons f rest ih =>
    intro rs h
    simp only [constructFields] at h
    cases h1 : constructField answers input f <;> rw [h1] at h
    · cases h
    · cases h2 : constructFields answers input rest <;> rw [h2] at h
      · cases h
      · cases h
        simp [ih h2, constructField_field h1]

theorem RunForm_accepts {input : String → GoValue} {a : AnswerMap} {fm : Form}
    {tr : List FieldRender} {a2 : AnswerMap}
    (h : RunForm input a fm = .ok (tr, a2)) :
    ∀ fr ∈ tr, fieldAccepts fr.field fr.final = true := by
  unfold RunForm at h
  split at h
  · cases h
  · split at h
    · split at h
      · cases h
        intro fr hfr
        exact List.all_eq_true.mp (by assumption) fr hfr
      · cases h
    · cases h
      intro fr hfr
      cases hfr

theorem RunForm_trace_fields {input : String → GoValue} {a : AnswerMap} {fm : Form}
    {tr : List FieldRender} {a2 : AnswerMap}
    (h : RunForm input a fm = .ok (tr, a2)) :
    ∀ fr ∈ tr, fr.field ∈ fm.allFields := by
  unfold RunForm at h
  split at h
  · cases h
  · rename_i rs heq
    split at h
    · split at h
      · cases h
        intro fr hfr
        rw [← constructFields_ok_map heq]
        exact List.mem_map_of_mem FieldRender.field hfr
      · cases h
    · cases h
      intro fr hfr
      cases hfr

theorem RunForms_trace_accepts (input : String → GoValue) :
    ∀ (fs : List Form) (a : AnswerMap) (fr : FieldRender),
      fr ∈ (RunForms input a fs).1 → fieldAccepts fr.field fr.final = true := by
  intro fs
  induction fs with
  | nil =>
    intro a fr h
    cases h
  | cons fm rest ih =>
    intro a fr h
    simp only [RunForms] at h
    cases h1 : RunForm input a fm <;> rw [h1] at h
    · cases h
    · rename_i p
      obtain ⟨tr, a2⟩ := p
      simp only [List.mem_append] at h
      cases h with
      | inl hl => exact RunForm_accepts h1 fr hl
      | inr hr => exact ih a2 fr hr

theorem RunForms_trace_mem (input : String → GoValue) :
    ∀ (fs : List Form) (a : AnswerMap) (fr : FieldRender),
      fr ∈ (RunForms input a fs).1 → ∃ fm ∈ fs, fr.field ∈ fm.allFields := by
  intro fs
  induction fs with
  | nil =>
    intro a fr h
    cases h
  | cons fm rest ih =>
    intro a fr h
    simp only [RunForms] at h
    cases h1 : RunForm input a fm <;> rw [h1] at h
    · cases h
    · rename_i p
      obtain ⟨tr, a2⟩ := p
      simp only [List.mem_append] at h
      cases h with
      | inl hl => exact ⟨fm, List.mem_cons_self fm rest, RunForm_trace_fields h1 fr hl⟩
      | inr hr =>
        obtain ⟨fm2, hfm2, hf⟩ := ih a2 fr hr
        exact ⟨fm2, List.mem_cons_of_mem fm hfm2, hf⟩

theorem constructField_of_unsupported {answers : AnswerMap} {input : String → GoValue}
    {f : Field} (h : supportedType f.type = false) :
    constructField answers input f = .error (.unsupportedFieldType f.type) := by
  simp only [supportedType, Bool.or_eq_false_iff, decide_eq_false_iff_not] at h
  obtain ⟨⟨⟨⟨⟨h1, h2⟩, h3⟩, h4⟩, h5⟩, h6⟩ := h
  simp [constructField, h1, h2, h3, h4, h5, h6]

theorem constructField_ok_of_supported {answers : AnswerMap} {input : String → GoValue}
    {f : Field} (h : supportedType f.type = true)
    (ht : isTemplateErr (constructField answers input f) = false) :
    ∃ r, constructField answers input f = .ok r := by
  simp only [supportedType, Bool.or_eq_true, decide_eq_true_eq] at h
  rcases h with ((((h1 | h2) | h3) | h4) | h5) | h6
  · exact ⟨⟨f, .null, .null⟩, by simp [constructField, h1]⟩
  · cases hN : NewInputField answers f with
    | error e =>
      exfalso
      have hc : constructField answers input f = .error (.templateError e) := by
        simp [constructField, h2, hN]
      rw [hc] at ht
      simp [isTemplateErr] at ht
    | ok v => exact ⟨⟨f, .str v, input f.key⟩, by simp [constructField, h2, hN]⟩
  · cases hN : NewTextField answers f with
    | error e =>
      exfalso
      have hc : constructField answers input f = .error (.templateError e) := by
        simp [constructField, h3, hN]
      rw [hc] at ht
      simp [isTemplateErr] at ht
    | ok v => exact ⟨⟨f, .str v, input f.key⟩, by simp [constructField, h3, hN]⟩
  · exact ⟨⟨f, .str (NewSelectField answers f).1, input f.key⟩, by simp [constructField, h4]⟩
  · exact ⟨⟨f, .list (NewMultiSelectField answers f).1, input f.key⟩, by simp [constructField, h5]⟩
  · exact ⟨⟨f, .boolean (NewConfirmField answers f), input f.key⟩, by simp [constructField, h6]⟩

theorem constructFields_first_unsupported {answers : AnswerMap} {input : String → GoValue} :
    ∀ (l : List Field),
      (∀ f ∈ l, isTemplateErr (constructField answers input f) = false) →
      (∃ f ∈ l, supportedType f.type = false) →
      ∃ f ∈ l, supportedType f.type = false ∧
        constructFields answers input l = .error (.unsupportedFieldType f.type) := by
  intro l
  induction l with
  | nil =>
    intro _ hex
    obtain ⟨f, hf, _⟩ := hex
    cases hf
  | cons f rest ih =>
    intro hnt hex
    cases hs : supportedType f.type with
    | false =>
      refine ⟨f, List.mem_cons_self f rest, hs, ?_⟩
      simp only [constructFields]
      rw [constructField_of_unsupported hs]
    | true =>
      have hex2 : ∃ g ∈ rest, supportedType g.type = false := by
        obtain ⟨g, hg, hgs⟩ := hex
        cases List.mem_cons.mp hg with
        | inl he => rw [he] at hgs; rw [hgs] at hs; cases hs
        | inr hm => exact ⟨g, hm, hgs⟩
      obtain ⟨g, hg, hgs, hrec⟩ :=
        ih (fun f2 h2 => hnt f2 (List.mem_cons_of_mem f h2)) hex2
      obtain ⟨r, hr⟩ :=
        constructField_ok_of_supported hs (hnt f (List.mem_cons_self f rest))
      refine ⟨g, List.mem_cons_of_mem f hg, hgs, ?_⟩
      simp only [constructFields]
      rw [hr, hrec]

theorem RunForm_unsupported {answers : AnswerMap} {input : String → GoValue} {fm : Form}
    (hnt : ∀ f ∈ fm.allFields, isTemplateErr (constructField answers input f) = false)
    (hex : ∃ f ∈ fm.allFields, supportedType f.type = false) :
    ∃ f ∈ fm.allFields, supportedType f.type = false ∧
      RunForm input answers fm = .error (.unsupportedFieldType f.type) := by
  obtain ⟨f, hf, hfs, hc⟩ := constructFields_first_unsupported fm.allFields hnt hex
  refine ⟨f, hf, hfs, ?_⟩
  unfold RunForm
  rw [hc]

theorem RunForms_cons_error {input : String → GoValue} {a : AnswerMap}
    {fm : Form} {rest : List Form} {e : RunError}
    (h : RunForm input a fm = .error e) :
    RunForms input a (fm :: rest) = ([], .error e) := by
  simp [RunForms, h]

theorem RunForms_cons_ok {input : String → GoValue} {a : AnswerMap}
    {fm : Form} {rest : List Form} {tr1 : List FieldRender} {a3 : AnswerMap}
    (h : RunForm input a fm = .ok (tr1, a3)) :
    RunForms input a (fm :: rest) =
      (tr1 ++ (RunForms input a3 rest).1, (RunForms input a3 rest).2) := by
  simp [RunForms, h]

theorem RunForms_append_ok {input : String → GoValue} :
    ∀ {xs : List Form} {a : AnswerMap} {tr : List FieldRender} {a2 : AnswerMap},
      RunForms input a xs = (tr, .ok a2) → ∀ ys,
      RunForms input a (xs ++ ys) =
        (tr ++ (RunForms input a2 ys).1, (RunForms input a2 ys).2) := by
  intro xs
  induction xs with
  | nil =>
    intro a tr a2 h ys
    simp only [RunForms] at h
    simp only [Prod.mk.injEq] at h
    obtain ⟨htr, hr⟩ := h
    cases hr
    subst htr
    simp
  | cons fm rest ih =>
    intro a tr a2 h ys
    cases h1 : RunForm input a fm with
    | error e =>
      rw [RunForms_cons_error h1] at h
      simp at h
    | ok p =>
      obtain ⟨tr1, a3⟩ := p
      rw [RunForms_cons_ok h1] at h
      rw [List.cons_append, RunForms_cons_ok h1]
      cases hE : RunForms input a3 rest with
      | mk ntr nr =>
        rw [hE] at h
        simp only [Prod.mk.injEq] at h
        obtain ⟨htr, hr⟩ := h
        cases nr with
        | error e => cases hr
        | ok a4 =>
          cases hr
          rw [ih hE ys]
          subst htr
          simp [List.append_assoc]

/-! ### Wire-codec round-trip lemmas -/

theorem stringMkData (s : String) : String.mk s.data = s := rfl

theorem stringDataMk (l : List Char) : (String.mk l).data = l := rfl

theorem wireP_inStr_quote (fmt : WireFormat) (ctx : WCtx) (acc rest : List Char) :
    wireP fmt (.inStr ctx acc) ('"' :: rest) = wireP fmt (strDone ctx acc) rest := by
  simp [wireP]

theorem wireP_inStr_backslash (fmt : WireFormat) (ctx : WCtx) (acc rest : List Char) :
    wireP fmt (.inStr ctx acc) ('\\' :: rest) = wireP fmt (.inStrEsc ctx acc) rest := by
  simp [wireP]

theorem wireP_inStr_other (fmt : WireFormat) (ctx : WCtx) (acc rest : List Char)
    {c : Char} (h1 : c ≠ '"') (h2 : c ≠ '\\') :
    wireP fmt (.inStr ctx acc) (c :: rest) = wireP fmt (.inStr ctx (acc ++ [c])) rest := by
  simp [wireP, h1, h2]

theorem wireP_inStrEsc_quote (fmt : WireFormat) (ctx : WCtx) (acc rest : List Char) :
    wireP fmt (.inStrEsc ctx acc) ('"' :: rest) = wireP fmt (.inStr ctx (acc ++ ['"'])) rest := by
  simp [wireP]

theorem wireP_inStrEsc_backslash (fmt : WireFormat) (ctx : WCtx) (acc rest : List Char) :
    wireP fmt (.inStrEsc ctx acc) ('\\' :: rest) = wireP fmt (.inStr ctx (acc ++ ['\\'])) rest := by
  simp [wireP]

theorem wireP_inStrEsc_n (fmt : WireFormat) (ctx : WCtx) (acc rest : List Char) :
    wireP fmt (.inStrEsc ctx acc) ('n' :: rest) = wireP fmt (.inStr ctx (acc ++ ['\n'])) rest := by
  simp [wireP]

/-- Consuming the escaped body of a quoted scalar and its closing quote
accumulates exactly the original characters. -/
theorem wireP_str (fmt : WireFormat) (ctx : WCtx) :
    ∀ (cs : List Char) (acc rest : List Char),
      wireP fmt (.inStr ctx acc) ((cs.map wireEscapeChar).flatten ++ '"' :: rest) =
        wireP fmt (strDone ctx (acc ++ cs)) rest := by
  intro cs
  induction cs with
  | nil =>
    intro acc rest
    simp [wireP_inStr_quote]
  | cons c cs ih =>
    intro acc rest
    simp only [List.map_cons, List.flatten_cons, List.append_assoc]
    by_cases h1 : c = '"'
    · subst h1
      rw [show wireEscapeChar '"' = ['\\', '"'] from by simp [wireEscapeChar]]
      simp only [List.cons_append, List.nil_append]
      rw [wireP_inStr_backslash, wireP_inStrEsc_quote, ih]
      simp
    · by_cases h2 : c = '\\'
      · subst h2
        rw [show wireEscapeChar '\\' = ['\\', '\\'] from by simp [wireEscapeChar]]
        simp only [List.cons_append, List.nil_append]
        rw [wireP_inStr_backslash, wireP_inStrEsc_backslash, ih]
        simp
      · by_cases h3 : c = '\n'
        · subst h3
          rw [show wireEscapeChar '\n' = ['\\', 'n'] from by simp [wireEscapeChar]]
          simp only [List.cons_append, List.nil_append]
          rw [wireP_inStr_backslash, wireP_inStrEsc_n, ih]
          simp
        · rw [show wireEscapeChar c = [c] from by simp [wireEscapeChar, h1, h2, h3]]
          simp only [List.cons_append, List.nil_append]
          rw [wireP_inStr_other fmt ctx acc _ h1 h2, ih]
          simp

theorem wireP_afterElem_comma (fmt : WireFormat) (done : AnswerMap) (k : String)
    (elems : List String) (rest : List Char) :
    wireP fmt (.afterElem done k elems) (',' :: rest) =
      wireP fmt (.atElem done k elems) rest := by
  simp [wireP]

theorem wireP_afterElem_close (fmt : WireFormat) (done : AnswerMap) (k : String)
    (elems : List String) (rest : List Char) :
    wireP fmt (.afterElem done k elems) (']' :: rest) =
      wireP fmt (.afterVal (done ++ [(k, .list elems)])) rest := by
  simp [wireP]

theorem wireP_atElem_quote (fmt : WireFormat) (done : AnswerMap) (k : String)
    (elems : List String) (rest : List Char) :
    wireP fmt (.atElem done k elems) ('"' :: rest) =
      wireP fmt (.inStr (.elem done k elems) []) rest := by
  simp [wireP]

/-- Consuming a list's remaining elements and the closing bracket appends
exactly those elements. -/
theorem wireP_elemsTail (fmt : WireFormat) (done : AnswerMap) (k : String) :
    ∀ (l elems : List String) (rest : List Char),
      wireP fmt (.afterElem done k elems) (wireElemsTail l ++ ']' :: rest) =
        wireP fmt (.afterVal (done ++ [(k, .list (elems ++ l))])) rest := by
  intro l
  induction l with
  | nil =>
    intro elems rest
    simp [wireElemsTail, wireP_afterElem_close]
  | cons s l ih =>
    intro elems rest
    simp only [wireElemsTail, wireStr, wireStrBody, List.cons_append, List.append_assoc,
      List.singleton_append]
    rw [wireP_afterElem_comma, wireP_atElem_quote, wireP_str]
    simp only [strDone, List.nil_append, stringMkData]
    rw [ih]
    simp

theorem wireP_atVal_quote (fmt : WireFormat) (done : AnswerMap) (k : String)
    (rest : List Char) :
    wireP fmt (.atVal done k) ('"' :: rest) = wireP fmt (.inStr (.val done k) []) rest := by
  simp [wireP]

theorem wireP_atVal_true (fmt : WireFormat) (done : AnswerMap) (k : String)
    (rest : List Char) :
    wireP fmt (.atVal done k) ('t' :: 'r' :: 'u' :: 'e' :: rest) =
      wireP fmt (.afterVal (done ++ [(k, .boolean true)])) rest := by
  simp [wireP]

theorem wireP_atVal_false (fmt : WireFormat) (done : AnswerMap) (k : String)
    (rest : List Char) :
    wireP fmt (.atVal done k) ('f' :: 'a' :: 'l' :: 's' :: 'e' :: rest) =
      wireP fmt (.afterVal (done ++ [(k, .boolean false)])) rest := by
  simp [wireP]

theorem wireP_atVal_null (fmt : WireFormat) (done : AnswerMap) (k : String)
    (rest : List Char) :
    wireP fmt (.atVal done k) ('n' :: 'u' :: 'l' :: 'l' :: rest) =
      wireP fmt (.afterVal (done ++ [(k, .null)])) rest := by
  simp [wireP]

theorem wireP_atVal_bracket (fmt : WireFormat) (done : AnswerMap) (k : String)
    (rest : List Char) :
    wireP fmt (.atVal done k) ('[' :: rest) = wireP fmt (.atElemFirst done k) rest := by
  simp [wireP]

theorem wireP_atElemFirst_quote (fmt : WireFormat) (done : AnswerMap) (k : String)
    (rest : List Char) :
    wireP fmt (.atElemFirst done k) ('"' :: rest) =
      wireP fmt (.inStr (.elem done k []) []) rest := by
  simp [wireP]

theorem wireP_atElemFirst_close (fmt : WireFormat) (done : AnswerMap) (k : String)
    (rest : List Char) :
    wireP fmt (.atElemFirst done k) (']' :: rest) =
      wireP fmt (.afterVal (done ++ [(k, .list [])])) rest := by
  simp [wireP]

/-- Consuming one encoded value records exactly that value. -/
theorem wireP_val (fmt : WireFormat) (done : AnswerMap) (k : String) :
    ∀ (v : GoValue) (rest : List Char),
      wireP fmt (.atVal done k) (wireVal v ++ rest) =
        wireP fmt (.afterVal (done ++ [(k, v)])) rest := by
  intro v rest
  cases v with
  | str s =>
    simp only [wireVal, wireStr, wireStrBody, List.cons_append, List.append_assoc,
      List.singleton_append]
    rw [wireP_atVal_quote, wireP_str]
    simp [strDone, stringMkData]
  | boolean b =>
    cases b with
    | true =>
      simp only [wireVal, List.cons_append, List.nil_append]
      rw [wireP_atVal_true]
    | false =>
      simp only [wireVal, List.cons_append, List.nil_append]
      rw [wireP_atVal_false]
  | null =>
    simp only [wireVal, List.cons_append, List.nil_append]
    rw [wireP_atVal_null]
  | list l =>
    simp only [wireVal, List.cons_append, List.append_assoc]
    rw [wireP_atVal_bracket]
    cases l with
    | nil =>
      simp [wireElems, wireP_atElemFirst_close]
    | cons s l2 =>
      simp only [wireElems, wireStr, wireStrBody, List.cons_append, List.append_assoc,
        List.singleton_append]
      rw [wireP_atElemFirst_quote, wireP_str]
      simp only [strDone, List.nil_append, stringMkData]
      rw [wireP_elemsTail]
      simp

theorem wireP_atKey_quote (fmt : WireFormat) (done : AnswerMap) (ae : Bool)
    (rest : List Char) :
    wireP fmt (.atKey done ae) ('"' :: rest) = wireP fmt (.inStr (.key done) []) rest := by
  simp [wireP]

theorem wireP_atColon_colon (fmt : WireFormat) (done : AnswerMap) (k : String)
    (rest : List Char) :
    wireP fmt (.atColon done k) (':' :: rest) =
      (if fmt.colonSpace then wireP fmt (.atColonSpace done k) rest
        else wireP fmt (.atVal done k) rest) := by
  by_cases h : fmt.colonSpace <;> simp [wireP, h]

theorem wireP_atColonSpace_space (fmt : WireFormat) (done : AnswerMap) (k : String)
    (rest : List Char) :
    wireP fmt (.atColonSpace done k) (' ' :: rest) = wireP fmt (.atVal done k) rest := by
  simp [wireP]

/-- Consuming one encoded `key: value` entry records exactly that entry. -/
theorem wireP_entry (fmt : WireFormat) (done : AnswerMap) (ae : Bool)
    (kv : String × GoValue) (rest : List Char) :
    wireP fmt (.atKey done ae) (wireEntry fmt kv ++ rest) =
      wireP fmt (.afterVal (done ++ [kv])) rest := by
  obtain ⟨k, v⟩ := kv
  simp only [wireEntry, wireStr, wireStrBody, List.cons_append, List.append_assoc,
    List.singleton_append]
  rw [wireP_atKey_quote, wireP_str]
  simp only [strDone, List.nil_append, stringMkData]
  rw [wireP_atColon_colon]
  by_cases hcs : fmt.colonSpace = true
  · simp only [hcs, if_true, List.singleton_append]
    rw [wireP_atColonSpace_space, wireP_val]
  · simp only [hcs, Bool.false_eq_true, if_false, List.nil_append]
    rw [wireP_val]

theorem wireP_afterVal_sep (fmt : WireFormat) (done : AnswerMap) (rest : List Char) :
    wireP fmt (.afterVal done) (fmt.entrySep :: rest) = wireP fmt (.atKey done false) rest := by
  simp [wireP]

theorem wireP_afterVal_cons (fmt : WireFormat) (done : AnswerMap) (c : Char)
    (rest : List Char) :
    wireP fmt (.afterVal done) (c :: rest) =
      if c = fmt.entrySep then wireP fmt (.atKey done false) rest
      else if fmt.braces && c = '\x7d' then wireP fmt (.atEnd done) rest
      else none := rfl

/-- Consuming the remaining encoded entries records exactly those entries. -/
theorem wireP_entriesTail (fmt : WireFormat) :
    ∀ (l : AnswerMap) (done : AnswerMap) (rest : List Char),
      wireP fmt (.afterVal done) (wireEntriesTail fmt l ++ rest) =
        wireP fmt (.afterVal (done ++ l)) rest := by
  intro l
  induction l with
  | nil =>
    intro done rest
    simp [wireEntriesTail]
  | cons kv l ih =>
    intro done rest
    simp only [wireEntriesTail, List.cons_append, List.append_assoc]
    rw [wireP_afterVal_sep, wireP_entry, ih]
    simp

/-- The modelled decoder inverts the modelled encoder, for every answer map
and for every wire format whose entry separator is not the closing brace —
both format instantiations satisfy this. -/
theorem parseWire_wireEncode (fmt : WireFormat) (hsep : fmt.entrySep ≠ '\x7d')
    (m : AnswerMap) : parseWire fmt (wireEncode fmt m) = some m := by
  unfold parseWire wireEncode
  cases hbr : fmt.braces with
  | false =>
    simp only [hbr, Bool.false_eq_true, if_false, stringDataMk]
    cases m with
    | nil => simp [wireEntries, wireP, hbr]
    | cons kv l =>
      simp only [wireEntries]
      rw [show wireEntry fmt kv ++ wireEntriesTail fmt l
          = wireEntry fmt kv ++ (wireEntriesTail fmt l ++ []) from by simp]
      rw [wireP_entry, wireP_entriesTail]
      simp [wireP, hbr]
  | true =>
    simp only [hbr, if_true, stringDataMk]
    show wireP fmt (.atKey [] true) (wireEntries fmt m ++ ['\x7d']) = some m
    cases m with
    | nil =>
      show wireP fmt (.atKey [] true) ('\x7d' :: []) = some []
      simp [wireP, hbr]
    | cons kv l =>
      simp only [wireEntries, List.append_assoc]
      rw [wireP_entry, wireP_entriesTail]
      rw [wireP_afterVal_cons]
      rw [if_neg (Ne.symm hsep)]
      simp [wireP, hbr]

/-! ### Template-resolution lemmas -/

theorem stringMkNil : String.mk ([] : List Char) = "" := rfl

theorem tplExec_single (answers : AnswerMap) (k : String) :
    tplExec answers [.lit [], .ref k, .lit []] = tplExecSeg answers (.ref k) := by
  simp [tplExec, tplExecSeg]

theorem ParseTemplate_refA (answers : AnswerMap) (key : String) :
    ParseTemplate answers refATemplate key = .ok (tplExecSeg answers (.ref "a")) := by
  unfold ParseTemplate
  rw [if_neg (by decide : ¬ refATemplate.length < 1)]
  rw [show tplScanAux false [] refATemplate.data
      = some [.lit [], .ref "a", .lit []] from by decide]
  show Except.ok (tplExec answers [.lit [], .ref "a", .lit []]) = _
  rw [tplExec_single]

theorem ParseTemplate_refHome (answers : AnswerMap) (key : String) :
    ParseTemplate answers refHomeTemplate key = .ok (tplExecSeg answers (.ref "HOME")) := by
  unfold ParseTemplate
  rw [if_neg (by decide : ¬ refHomeTemplate.length < 1)]
  rw [show tplScanAux false [] refHomeTemplate.data
      = some [.lit [], .ref "HOME", .lit []] from by decide]
  show Except.ok (tplExec answers [.lit [], .ref "HOME", .lit []]) = _
  rw [tplExec_single]

/-! ### Symbolic run computations for the template-ordering claim -/

theorem constructA (va vb : String) :
    constructField [] (c4input va vb) fieldA = .ok ⟨fieldA, .str "", .str va⟩ := by
  simp [constructField, fieldA, NewInputField, lookupA, c4input]

theorem constructB2 (va vb : String) :
    constructField [("a", .str va)] (c4input va vb) fieldB =
      .ok ⟨fieldB, .str (htmlEscape va), .str vb⟩ := by
  have hp := ParseTemplate_refA [("a", .str va)] "b"
  simp only [tplExecSeg, lookupA, if_pos rfl, goSprint] at hp
  simp [constructField, fieldB, NewInputField, lookupA, c4input, hp]

theorem constructB1 (va vb : String) :
    constructField [] (c4input va vb) fieldB = .ok ⟨fieldB, .str tplMissing, .str vb⟩ := by
  have hp := ParseTemplate_refA [] "b"
  simp only [tplExecSeg, lookupA] at hp
  simp [constructField, fieldB, NewInputField, lookupA, c4input, hp]

theorem runFormA (va vb : String) :
    RunForm (c4input va vb) [] ⟨[⟨"", "", [fieldA]⟩]⟩ =
      .ok ([⟨fieldA, .str "", .str va⟩], [("a", .str va)]) := by
  unfold RunForm
  rw [show Form.allFields ⟨[⟨"", "", [fieldA]⟩]⟩ = [fieldA] from by decide]
  rw [show constructFields [] (c4input va vb) [fieldA]
      = .ok [⟨fieldA, .str "", .str va⟩] from by
        simp only [constructFields, constructA va vb]]
  simp [fieldAccepts, fieldA, inputValidateFails, Form.ValueFields, Group.ValueFields,
    insertA, c4input]

theorem runFormB (va vb : String) :
    RunForm (c4input va vb) [("a", .str va)] ⟨[⟨"", "", [fieldB]⟩]⟩ =
      .ok ([⟨fieldB, .str (htmlEscape va), .str vb⟩],
        [("a", .str va), ("b", .str vb)]) := by
  unfold RunForm
  rw [show Form.allFields ⟨[⟨"", "", [fieldB]⟩]⟩ = [fieldB] from by decide]
  rw [show constructFields [("a", .str va)] (c4input va vb) [fieldB]
      = .ok [⟨fieldB, .str (htmlEscape va), .str vb⟩] from by
        simp only [constructFields, constructB2 va vb]]
  simp [fieldAccepts, fieldB, inputValidateFails, Form.ValueFields, Group.ValueFields,
    insertA, c4input]

theorem runFormAB (va vb : String) :
    RunForm (c4input va vb) [] ⟨[⟨"", "", [fieldA]⟩, ⟨"", "", [fieldB]⟩]⟩ =
      .ok ([⟨fieldA, .str "", .str va⟩, ⟨fieldB, .str tplMissing, .str vb⟩],
        [("a", .str va), ("b", .str vb)]) := by
  unfold RunForm
  rw [show Form.allFields ⟨[⟨"", "", [fieldA]⟩, ⟨"", "", [fieldB]⟩]⟩ = [fieldA, fieldB] from by decide]
  rw [show constructFields [] (c4input va vb) [fieldA, fieldB]
      = .ok [⟨fieldA, .str "", .str va⟩, ⟨fieldB, .str tplMissing, .str vb⟩] from by
        simp only [constructFields, constructA va vb, constructB1 va vb]]
  simp [fieldAccepts, fieldA, fieldB, inputValidateFails, Form.ValueFields, Group.ValueFields,
    insertA, c4input]

/-! ### Remaining helper lemmas -/

theorem stringLengthZero (s : String) : s.length = 0 ↔ s = "" := by
  cases s with
  | mk data =>
    constructor
    · intro h
      have hd : data = [] := by simpa [String.length] using h
      subst hd
      rfl
    · intro h
      have hd : data = [] := by
        have h2 := congrArg String.data h
        simpa using h2
      simp [String.length, hd]

theorem lookupA_map_pairs (input : String → GoValue) :
    ∀ (l : List Field) (f : Field), f ∈ l → (l.map Field.key).Nodup →
      lookupA (l.map (fun g => (g.key, finalValue input g))) f.key =
        some (finalValue input f) := by
  intro l
  induction l with
  | nil => intro f hf _; cases hf
  | cons g rest ih =>
    intro f hf hnd
    simp only [List.map_cons, List.nodup_cons] at hnd
    simp only [List.map_cons, lookupA]
    cases List.mem_cons.mp hf with
    | inl he =>
      subst he
      rw [if_pos rfl]
    | inr hm =>
      rw [if_neg (fun (he : g.key = f.key) => hnd.1 (he ▸ List.mem_map_of_mem Field.key hm))]
      exact ih f hm hnd.2

/-! ### Claim C1 -/

/-- C1 (counterexample): on a schema with a keyed note field and an input
field, the serialized answer map's key set is `["n", "i"]` — the note's key
included — while the non-note keys are just `["i"]`; so the serialized map
is not "exactly the keys of all non-note fields". -/
theorem c1_counterexample :
    (Survey.Run c1survey xInput).2 = .ok [("i", .str "x")] ∧
    keysA (c1survey.AnswersMap xInput) = ["n", "i"] ∧
    c1survey.nonNoteKeys = ["i"] ∧
    keysA (c1survey.AnswersMap xInput) ≠ c1survey.nonNoteKeys := by
  decide

/-- C1 (amended): for a completed run over a schema with pairwise distinct
field keys, the serialized answer map carries exactly one entry per field —
note fields included, each under its own key, a note serializing the note
widget's nil value; only the in-run answers map excludes the notes. -/
theorem c1_amended (s : Survey) (input : String → GoValue)
    (tr : List FieldRender) (ans : AnswerMap)
    (hrun : Survey.Run s input = (tr, .ok ans))
    (hnd : (s.allFields.map Field.key).Nodup) :
    keysA (s.AnswersMap input) = s.allFields.map Field.key ∧
    ∀ f ∈ s.allFields, f.type = "note" →
      lookupA (s.AnswersMap input) f.key = some .null := by
  have hm := AnswersMap_eq_of_nodup s input hnd
  constructor
  · rw [hm]
    simp [keysA, List.map_map, Function.comp]
  · intro f hf ht
    rw [hm, lookupA_map_pairs input s.allFields f hf hnd]
    simp [finalValue, ht]

/-- C1 (witness): the amended statement holds on the concrete two-field
schema with the keyed note. -/
theorem c1_witness :
    keysA (c1survey.AnswersMap xInput) = c1survey.allFields.map Field.key ∧
    ∀ f ∈ c1survey.allFields, f.type = "note" →
      lookupA (c1survey.AnswersMap xInput) f.key = some .null :=
  c1_amended c1survey xInput
    [⟨noteField, .null, .null⟩, ⟨inputFieldI, .str "", .str "x"⟩]
    [("i", .str "x")] (by decide) (by decide)

/-! ### Claim C2 -/

/-- C2: when the forms before form `fi` complete and `fi` contains a field
of an unimplemented type (and no field of `fi` panics on its template), the
run returns the unsupported-field-type error of the first such field before
any field of `fi` — in particular any field of the bad field's group or of
any later group — is rendered; `main` then exits fatally without writing
any output. -/
theorem c2_unsupported_abort
    (s : Survey) (input : String → GoValue) (confirmOk : Bool)
    (pre : List Form) (fi : Form) (post : List Form)
    (tr0 : List FieldRender) (ans0 : AnswerMap)
    (hforms : s.forms = pre ++ fi :: post)
    (hpre : RunForms input s.answers pre = (tr0, .ok ans0))
    (hex : ∃ f ∈ fi.allFields, supportedType f.type = false)
    (hnt : ∀ f ∈ fi.allFields, isTemplateErr (constructField ans0 input f) = false) :
    ∃ f ∈ fi.allFields, supportedType f.type = false ∧
      Survey.Run s input = (tr0, .error (.unsupportedFieldType f.type)) ∧
      surveyMain s input confirmOk = (tr0, .fatalRun (.unsupportedFieldType f.type)) ∧
      ∀ fr ∈ tr0, ∃ fm ∈ pre, fr.field ∈ fm.allFields := by
  obtain ⟨f, hf, hfs, hform⟩ :=
    @RunForm_unsupported ans0 input fi hnt hex
  have hrun : Survey.Run s input = (tr0, .error (.unsupportedFieldType f.type)) := by
    unfold Survey.Run
    rw [hforms]
    rw [RunForms_append_ok hpre (fi :: post)]
    rw [RunForms_cons_error hform]
    simp
  refine ⟨f, hf, hfs, hrun, ?_, ?_⟩
  · unfold surveyMain
    rw [hrun]
  · intro fr hfr
    have hmem : fr ∈ (RunForms input s.answers pre).1 := by
      rw [hpre]
      exact hfr
    exact RunForms_trace_mem input pre s.answers fr hmem

/-- C2 (witness): the abort happens on the concrete schema whose second
form holds a `wizard` field, after the first form completed. -/
theorem c2_witness :
    ∃ f ∈ (⟨[⟨"g2", "", [wizardField]⟩]⟩ : Form).allFields,
      supportedType f.type = false ∧
      Survey.Run c2survey xInput =
        ([⟨inputFieldI, .str "", .str "x"⟩], .error (.unsupportedFieldType f.type)) ∧
      surveyMain c2survey xInput true =
        ([⟨inputFieldI, .str "", .str "x"⟩], .fatalRun (.unsupportedFieldType f.type)) ∧
      ∀ fr ∈ [(⟨inputFieldI, .str "", .str "x"⟩ : FieldRender)],
        ∃ fm ∈ [(⟨[⟨"g1", "", [inputFieldI]⟩]⟩ : Form)], fr.field ∈ fm.allFields :=
  c2_unsupported_abort c2survey xInput true
    [⟨[⟨"g1", "", [inputFieldI]⟩]⟩] ⟨[⟨"g2", "", [wizardField]⟩]⟩ []
    [⟨inputFieldI, .str "", .str "x"⟩] [("i", .str "x")]
    (by decide) (by decide) (by decide) (by decide)

/-! ### Claim C3 -/

/-- C3 (counterexample): the host environment holds `HOME=/root`, yet a
default template referencing `HOME` resolves to the answers-map value
`from-answers`, not to the environment variable's value: the resolver's
only data source is the survey's answers map (`tmpl.Execute(&buf,
s.answers)`), and the environment is never passed in. -/
theorem c3_counterexample :
    hostEnv "HOME" = some "/root" ∧
    ParseTemplate [("HOME", .str "from-answers")] refHomeTemplate "d" =
      .ok "from-answers" ∧
    ("from-answers" : String) ≠ "/root" := by
  decide

/-- C3 (amended): a marker referencing a name resolves against the current
answers map — to the HTML-escaped rendering of the value stored under that
name — regardless of the host environment. -/
theorem c3_amended (answers : AnswerMap) (v : GoValue) (key : String)
    (h : lookupA answers "HOME" = some v) :
    ParseTemplate answers refHomeTemplate key = .ok (htmlEscape (goSprint v)) := by
  rw [ParseTemplate_refHome]
  simp [tplExecSeg, h]

/-- C3 (witness): the amended resolution rule at a concrete answers map. -/
theorem c3_witness :
    ParseTemplate [("HOME", .str "zz")] refHomeTemplate "k" =
      .ok (htmlEscape (goSprint (.str "zz"))) :=
  c3_amended [("HOME", .str "zz")] (.str "zz") "k" (by decide)

/-! ### Claim C4 -/

/-- C4 (counterexample): `fieldA` (group 1) and `fieldB` (group 2) sit in
the same form; the persisted answers hold `a: old` and the operator enters
`new` for `a`.  `fieldB`'s default, which references `a`, resolves to the
resumed value `old`, not to the entered value `new`: the runner writes a
session's values only after the whole form, and all of a form's groups are
constructed before the form runs. -/
theorem c4_counterexample :
    Survey.Run c4resumed (c4input "new" "z") =
      ([⟨fieldA, .str "old", .str "new"⟩, ⟨fieldB, .str "old", .str "z"⟩],
        .ok [("a", .str "new"), ("b", .str "z")]) ∧
    ("old" : String) ≠ "new" := by
  decide

/-- C4 (amended): entered values become visible to templates of later
*forms*, not later groups.  With `fieldA` and `fieldB` in two forms,
`fieldB`'s default resolves to the escaped entered value of `a`; with the
two fields in two groups of one form, `fieldB`'s default resolves to
whatever the template yields against the answers as they stood before the
form — entered values of the same form are never visible. -/
theorem c4_amended (va vb : String) :
    Survey.Run c4twoForms (c4input va vb) =
      ([⟨fieldA, .str "", .str va⟩, ⟨fieldB, .str (htmlEscape va), .str vb⟩],
        .ok [("a", .str va), ("b", .str vb)]) ∧
    ∃ t0, ParseTemplate [] refATemplate "b" = .ok t0 ∧
      Survey.Run c4oneForm (c4input va vb) =
        ([⟨fieldA, .str "", .str va⟩, ⟨fieldB, .str t0, .str vb⟩],
          .ok [("a", .str va), ("b", .str vb)]) := by
  constructor
  · show RunForms (c4input va vb) []
      [⟨[⟨"", "", [fieldA]⟩]⟩, ⟨[⟨"", "", [fieldB]⟩]⟩] = _
    rw [RunForms_cons_ok (runFormA va vb), RunForms_cons_ok (runFormB va vb)]
    simp [RunForms]
  · refine ⟨tplMissing, ?_, ?_⟩
    · have hp := ParseTemplate_refA [] "b"
      simpa [tplExecSeg, lookupA] using hp
    · show RunForms (c4input va vb) []
        [⟨[⟨"", "", [fieldA]⟩, ⟨"", "", [fieldB]⟩]⟩] = _
      rw [RunForms_cons_ok (runFormAB va vb)]
      simp [RunForms]

/-! ### Claim C5 -/

/-- C5: for input and text fields with a string default, the effective
initial value is computed template-first: a template failure surfaces even
when a persisted value exists (the source panics before the override); a
persisted string under the field's key overrides the successfully templated
default; with no persisted string, the templated default stands. -/
theorem c5_default_resolution_order (answers : AnswerMap) (f : Field) (d : String)
    (hd : f.default = .str d) :
    (∀ e, ParseTemplate answers d f.key = .error e →
      NewInputField answers f = .error e ∧ NewTextField answers f = .error e) ∧
    (∀ t a, ParseTemplate answers d f.key = .ok t →
      lookupA answers f.key = some (.str a) →
      NewInputField answers f = .ok a ∧ NewTextField answers f = .ok a) ∧
    (∀ t, ParseTemplate answers d f.key = .ok t →
      (∀ a, lookupA answers f.key ≠ some (.str a)) →
      NewInputField answers f = .ok t ∧ NewTextField answers f = .ok t) := by
  refine ⟨?_, ?_, ?_⟩
  · intro e he
    constructor <;> simp [NewInputField, NewTextField, hd, he]
  · intro t a ht ha
    constructor <;> simp [NewInputField, NewTextField, hd, ht, ha]
  · intro t ht hno
    cases hv : lookupA answers f.key with
    | none =>
      constructor <;> simp [NewInputField, NewTextField, hd, ht, hv]
    | some v =>
      cases v with
      | str a => exact absurd hv (hno a)
      | boolean b => constructor <;> simp [NewInputField, NewTextField, hd, ht, hv]
      | list l => constructor <;> simp [NewInputField, NewTextField, hd, ht, hv]
      | null => constructor <;> simp [NewInputField, NewTextField, hd, ht, hv]

/-- C5 (witness): the persisted string overrides the templated default on a
concrete field. -/
theorem c5_witness :
    NewInputField c5answers c5field = .ok "persisted" ∧
    NewTextField c5answers c5field = .ok "persisted" :=
  (c5_default_resolution_order c5answers c5field "hello" (by decide)).2.1
    "hello" "persisted" (by decide) (by decide)

/-! ### Claim C6 -/

/-- C6 (counterexample): a persisted list that matches no option (`azure`)
still clears the select's default `gcp` — the `value = value[:0]` in the
option loop runs as soon as a persisted list exists — so the templated or
static default does not stand for a field with a non-matching persisted
entry; no option is marked either. -/
theorem c6_counterexample :
    (NewSelectField c6answers cloudField).1 = "" ∧
    cloudField.default = .str "gcp" ∧
    (NewSelectField c6answers cloudField).1 ≠ "gcp" ∧
    (NewSelectField c6answers cloudField).2.map HuhOption.selected = [false, false] := by
  decide

/-- C6 (amended): a persisted *list* under the field's key marks as
pre-selected exactly the options that are statically selected or whose
`value` (never the display key) matches a list element; whenever such a
list exists and the field has options, the select's default string and the
multiselect's default list are cleared, match or no match.  The default
stands unchanged — and the marking is the static marking — exactly when no
persisted list exists under the key. -/
theorem c6_resume_marking (answers : AnswerMap) (f : Field) :
    (∀ l, lookupA answers f.key = some (.list l) →
      (NewSelectField answers f).2.map HuhOption.selected
          = f.options.map (fun o => o.selected || l.contains o.value) ∧
      (NewMultiSelectField answers f).2.map HuhOption.selected
          = f.options.map (fun o => o.selected || l.contains o.value) ∧
      (f.options ≠ [] →
        (NewSelectField answers f).1 = "" ∧ (NewMultiSelectField answers f).1 = [])) ∧
    ((∀ l, lookupA answers f.key ≠ some (.list l)) →
      (NewSelectField answers f).1 = (match f.default with | .str d => d | _ => "") ∧
      (NewMultiSelectField answers f).1
          = (match f.default with | .list l => l | _ => []) ∧
      (NewSelectField answers f).2.map HuhOption.selected
          = f.options.map SelectOption.selected ∧
      (NewMultiSelectField answers f).2.map HuhOption.selected
          = f.options.map SelectOption.selected) := by
  constructor
  · intro l hl
    refine ⟨?_, ?_, ?_⟩
    · simp [NewSelectField, persistedList, hl, markOption, List.map_map, Function.comp]
    · simp [NewMultiSelectField, persistedList, hl, markOption, List.map_map, Function.comp]
    · intro hopt
      cases ho : f.options with
      | nil => exact absurd ho hopt
      | cons o os =>
        constructor
        · simp [NewSelectField, persistedList, hl, ho]
        · simp [NewMultiSelectField, persistedList, hl, ho]
  · intro hno
    have hp : persistedList answers f.key = none := by
      unfold persistedList
      cases hv : lookupA answers f.key with
      | none => rfl
      | some v =>
        cases v with
        | list l => exact absurd hv (hno l)
        | str s2 => rfl
        | boolean b => rfl
        | null => rfl
    refine ⟨?_, ?_, ?_, ?_⟩
    · simp [NewSelectField, hp]
    · simp [NewMultiSelectField, hp]
    · simp [NewSelectField, hp, markOption, List.map_map, Function.comp]
    · simp [NewMultiSelectField, hp, markOption, List.map_map, Function.comp]

/-- C6 (witness): the clearing branch of the amended statement on the
concrete select field with the non-matching persisted list. -/
theorem c6_witness :
    (NewSelectField c6answers cloudField).1 = "" ∧
    (NewMultiSelectField c6answers cloudField).1 = [] :=
  ((c6_resume_marking c6answers cloudField).1 ["azure"] (by decide)).2.2 (by decide)

/-! ### Claim C7 -/

/-- C7: the per-kind validation predicates — input and text reject exactly
a required empty string, select exactly a required empty choice,
multiselect exactly a required empty set, confirm never — and, in every
completed run, no rendered required field ends with an empty string (input,
text, select) or an empty list (multiselect). -/
theorem c7_validators :
    (∀ (f : Field) (s : String), inputValidateFails f s = true ↔
      (f.required = true ∧ s = "")) ∧
    (∀ (f : Field) (s : String), textValidateFails f s = true ↔
      (f.required = true ∧ s = "")) ∧
    (∀ (f : Field) (s : String), selectValidateFails f s = true ↔
      (f.required = true ∧ s = "")) ∧
    (∀ (f : Field) (l : List String), multiselectValidateFails f l = true ↔
      (f.required = true ∧ l = [])) ∧
    (∀ (f : Field) (b : Bool), confirmValidateFails f b = false) ∧
    (∀ (s : Survey) (input : String → GoValue) (tr : List FieldRender)
        (ans : AnswerMap),
      Survey.Run s input = (tr, .ok ans) → ∀ fr ∈ tr, fr.field.required = true →
        ((fr.field.type = "input" ∨ fr.field.type = "text" ∨ fr.field.type = "select") →
          fr.final ≠ .str "") ∧
        (fr.field.type = "multiselect" → fr.final ≠ .list [])) := by
  refine ⟨?_, ?_, ?_, ?_, ?_, ?_⟩
  · intro f s
    simp [inputValidateFails, Bool.and_eq_true]
  · intro f s
    simp [textValidateFails, Bool.and_eq_true]
  · intro f s
    simp [selectValidateFails, Bool.and_eq_true, Nat.le_zero, stringLengthZero]
  · intro f l
    simp [multiselectValidateFails, Bool.and_eq_true, Nat.le_zero, List.length_eq_zero]
  · intro f b
    rfl
  · intro s input tr ans hrun fr hfr hreq
    have h1 : fr ∈ (Survey.Run s input).1 := by
      rw [hrun]
      exact hfr
    have hacc : fieldAccepts fr.field fr.final = true :=
      RunForms_trace_accepts input s.forms s.answers fr h1
    constructor
    · intro htype heqfin
      rcases htype with ht | ht | ht
      · rw [heqfin] at hacc
        simp [fieldAccepts, ht, inputValidateFails, hreq] at hacc
      · rw [heqfin] at hacc
        simp [fieldAccepts, ht, textValidateFails, hreq] at hacc
      · rw [heqfin] at hacc
        simp [fieldAccepts, ht, selectValidateFails, hreq] at hacc
    · intro ht heqfin
      rw [heqfin] at hacc
      simp [fieldAccepts, ht, multiselectValidateFails, hreq] at hacc

/-- C7 (witness): the validator rejects the empty string on the concrete
required field, and the completed run over it leaves a non-empty value. -/
theorem c7_witness :
    inputValidateFails reqField "" = true ∧
    (((reqField.type = "input" ∨ reqField.type = "text" ∨ reqField.type = "select") →
        FieldRender.final ⟨reqField, .str "", .str "y"⟩ ≠ .str "") ∧
      (reqField.type = "multiselect" →
        FieldRender.final ⟨reqField, .str "", .str "y"⟩ ≠ .list [])) :=
  ⟨(c7_validators.1 reqField "").mpr (by decide),
    c7_validators.2.2.2.2.2 c7survey yInput
      [⟨reqField, .str "", .str "y"⟩] [("r", .str "y")] (by decide)
      ⟨reqField, .str "", .str "y"⟩ (by decide) (by decide)⟩

/-! ### Claim C8 -/

/-- C8: serializing an answer map and loading the bytes back through the
persisted-answer loader yields the original map, for each supported format
(the YAML and JSON codecs are external; they are modelled as the two
instantiations of the wire format, each proved to invert its encoder). -/
theorem c8_round_trip (m : AnswerMap) :
    readAnswers (fun p => if p = "answers.yaml" then some (yamlMarshal m) else none)
      "answers.yaml" = .ok m ∧
    readAnswers (fun p => if p = "answers.json" then some (jsonMarshal m) else none)
      "answers.json" = .ok m := by
  constructor
  · have hy : yamlUnmarshal (yamlMarshal m) = some m :=
      parseWire_wireEncode yamlFmt (by decide) m
    simp [readAnswers, hy, show fileType "answers.yaml" = "yaml" from by decide]
  · have hj : jsonUnmarshal (jsonMarshal m) = some m :=
      parseWire_wireEncode jsonFmt (by decide) m
    simp [readAnswers, hj, show fileType "answers.json" = "json" from by decide]

/-! ### Claim C9 -/

/-- C9 (counterexample): an *existing* answers file whose extension names
no codec aborts the load with `ErrUnsupportedFileExtension` — an abort that
is not a parse failure, contradicting "only a parse failure of an existing
file aborts the run". -/
theorem c9_counterexample :
    readAnswers c9fs "out.txt" = .error .unsupportedExtension ∧
    c9fs "out.txt" = some "hello" ∧
    LoadError.unsupportedExtension ≠ .parseError "yaml" ∧
    LoadError.unsupportedExtension ≠ .parseError "json" := by
  decide

/-- C9 (amended): with an empty or `-` output path the answers load returns
the empty map without consulting the filesystem; a missing file loads as
the empty map with no error; and a load aborts only when the file exists —
with either a parse failure or an unsupported extension. -/
theorem c9_load_totality :
    (∀ (fs : FileSystem) (output : String), (output = "" ∨ output = "-") →
      NewSurveyAnswers fs output = .ok []) ∧
    (∀ (fs : FileSystem) (path : String), fs path = none →
      readAnswers fs path = .ok []) ∧
    (∀ (fs : FileSystem) (path : String) (e : LoadError),
      readAnswers fs path = .error e →
      ∃ contents, fs path = some contents ∧
        (e = .unsupportedExtension ∨ ∃ fmtName, e = .parseError fmtName)) := by
  refine ⟨?_, ?_, ?_⟩
  · intro fs output h
    unfold NewSurveyAnswers
    rw [if_neg]
    intro hcontra
    rcases h with h | h
    · exact hcontra.1 h
    · exact hcontra.2 h
  · intro fs path h
    unfold readAnswers
    rw [h]
  · intro fs path e h
    unfold readAnswers at h
    split at h
    · cases h
    · rename_i contents hfs
      refine ⟨contents, hfs, ?_⟩
      split at h
      · split at h
        · cases h
        · cases h
          exact Or.inr ⟨"yaml", rfl⟩
      · split at h
        · split at h
          · cases h
          · cases h
            exact Or.inr ⟨"json", rfl⟩
        · cases h
          exact Or.inl rfl

/-- C9 (witness): resume disabled on the stdout sentinel, and the
unsupported-extension abort exhibits the existing-file condition. -/
theorem c9_witness :
    NewSurveyAnswers c9fs "-" = .ok [] ∧
    ∃ contents, c9fs "out.txt" = some contents ∧
      (LoadError.unsupportedExtension = .unsupportedExtension ∨
        ∃ fmtName, LoadError.unsupportedExtension = .parseError fmtName) :=
  ⟨c9_load_totality.1 c9fs "-" (Or.inr rfl),
    c9_load_totality.2.2 c9fs "out.txt" .unsupportedExtension (by decide)⟩

/-! ### Claim C10 -/

/-- C10: template expansion HTML-escapes substituted content: an answer
containing `<`, `&` and `"` resolves to its HTML entity encoding, and the
resolved string no longer contains the literal characters. -/
theorem c10_html_escaping :
    ParseTemplate c10answers refKTemplate "t" = .ok "&lt;b&gt;&amp;&#34;hi" ∧
    '<' ∉ ("&lt;b&gt;&amp;&#34;hi" : String).data ∧
    '"' ∉ ("&lt;b&gt;&amp;&#34;hi" : String).data ∧
    '<' ∈ ("<b>&\"hi" : String).data := by
  decide

end Dhuh
